import Mathlib

set_option maxRecDepth 8000

/-!
Shallow embedding of the Telegram lead-capture bot (`src/main.py`): the
per-user dialogue state machine (`button_handler`, `handle_message`), its
validators (`is_valid_email`, `is_valid_phone`) and the spreadsheet
submission step (`save_to_sheet_sync`).  Handlers are modelled as pure
functions from an inbound event and the session store to the new store
together with an ordered trace of observable effects; the Record Sink
outcome is passed in as an `Except` value so that success and failure of
the external append are both covered.
-/

/-- One per-user dialogue session, mirroring the dict stored in
`user_data` with keys `step`, `Option`, `Name`, `Email`, `Phone`, `Query`. -/
structure Session where
  step : Nat
  option : String
  name : String
  email : String
  phone : String
  query : String
deriving DecidableEq

/-- The in-memory session store `user_data`: a user-id-keyed association
list modelling the Python dict (unique keys when built by the handlers). -/
abbrev Store := List (Nat × Session)

/-- Dict lookup `user_data.get(user_id)` / `user_id in user_data`. -/
def findS : Store → Nat → Option Session
  | [], _ => none
  | (k, v) :: rest, u => if k = u then some v else findS rest u

/-- Dict write `user_data[user_id] = s`: overwrite the entry if the key is
present, otherwise append a new entry (Python dicts keep insertion order). -/
def insertS : Store → Nat → Session → Store
  | [], u, s => [(u, s)]
  | (k, v) :: rest, u, s => if k = u then (u, s) :: rest else (k, v) :: insertS rest u s

/-- Dict delete, as performed by `reset_user`: removes the entry for the key
(a no-op when the key is absent, matching the `if user_id in user_data` guard). -/
def eraseS (st : Store) (u : Nat) : Store := st.filter (fun p => p.1 != u)

/-- Number of entries stored for a given user id. -/
def countKey (st : Store) (u : Nat) : Nat := (st.filter (fun p => p.1 == u)).length

/-- Observable effects of one handler invocation, in program order:
acknowledging the callback query (`query.answer()`), editing the inline
keyboard, sending a text, writing or deleting a store entry, and the
`sheet.append_row` call (the row's leading wall-clock timestamp is omitted
as an out-of-scope external input). -/
inductive Effect where
  | ack : Effect
  | editMarkup : Effect
  | send : String → Effect
  | storePut : Nat → Session → Effect
  | storeDelete : Nat → Effect
  | sinkCall : List String → Effect
deriving DecidableEq

/-- The `KNOWN_OPTIONS` list of recognized service labels. -/
def KNOWN_OPTIONS : List String :=
  ["Digital Marketing Strategy", "Paid Marketing", "SEO", "Creatives"]

/-- One character of the regex class `\w` (ASCII model): letter, digit or
underscore. -/
def isWordCh (c : Char) : Bool := c.isAlphanum || c = '_'

/-- One character of the regex class `[\w.-]`. -/
def isAtomCh (c : Char) : Bool := isWordCh c || c = '.' || c = '-'

/-- Whether a character list is in the language of the email pattern
`[\w.-]+@[\w.-]+\.\w+`, matched in full: split at the first `@` (the local
part may not contain `@`) and at the last `.` of the remainder (the final
`\w+` may not contain `.`); both splits are complete for language
membership because the character classes exclude the delimiters. -/
def emailFullMatch (cs : List Char) : Bool :=
  match cs.dropWhile (fun c => c ≠ '@') with
  | '@' :: rest =>
    match rest.reverse.dropWhile (fun c => c ≠ '.') with
    | '.' :: revDom =>
      (!(cs.takeWhile (fun c => c ≠ '@')).isEmpty) &&
      (cs.takeWhile (fun c => c ≠ '@')).all isAtomCh &&
      (!revDom.isEmpty) && revDom.all isAtomCh &&
      (!(rest.reverse.takeWhile (fun c => c ≠ '.')).isEmpty) &&
      (rest.reverse.takeWhile (fun c => c ≠ '.')).all isWordCh
    | _ => false
  | _ => false

/-- Python `re` semantics of a pattern anchored with `^` and `$` under
`re.match`: the whole string matches, or the string minus one trailing
newline matches (in Python, `$` also matches just before a newline at the
end of the string). -/
def pyAnchoredDollar (m : List Char → Bool) (cs : List Char) : Bool :=
  m cs || ((cs.getLast? == some '\n') && m cs.dropLast)

/-- `is_valid_email` from `main.py`:
`re.match(r'^[\w\.-]+@[\w\.-]+\.\w+$', email) is not None`. -/
def is_valid_email (email : String) : Bool :=
  pyAnchoredDollar emailFullMatch email.data

/-- Python `str.strip()` (ASCII whitespace model): drop whitespace from
both ends. -/
def pyStrip (cs : List Char) : List Char :=
  ((cs.dropWhile Char.isWhitespace).reverse.dropWhile Char.isWhitespace).reverse

/-- Python `str.replace(c, "")` for a one-character pattern: remove every
occurrence of the character. -/
def removeCh : List Char → Char → List Char
  | [], _ => []
  | c :: cs, d => if c = d then removeCh cs d else c :: removeCh cs d

/-- Python `s[1:]` after `s.startswith("+")`: strip a single leading `+`. -/
def stripPlus : List Char → List Char
  | '+' :: rest => rest
  | cs => cs

/-- Python `str.isdigit()` (ASCII model): non-empty and all decimal digits. -/
def pyIsdigit (cs : List Char) : Bool := !cs.isEmpty && cs.all Char.isDigit

/-- `is_valid_phone` from `main.py`: strip surrounding whitespace, remove
all spaces and hyphens, strip one optional leading `+`, then require all
digits with at least 7 of them. -/
def is_valid_phone (phone : String) : Bool :=
  pyIsdigit (stripPlus (removeCh (removeCh (pyStrip phone.data) ' ') '-')) &&
    decide (7 ≤ (stripPlus (removeCh (removeCh (pyStrip phone.data) ' ') '-')).length)

/-- `save_to_sheet_sync` from `main.py`: the `try/except` around
`sheet.append_row` turns the sink outcome into a `Bool` and never lets an
exception escape (in the embedding: a total function on the sink outcome). -/
def save_to_sheet_sync (sinkResult : Except String Unit) : Bool :=
  match sinkResult with
  | Except.ok _ => true
  | Except.error _ => false

/-- Python `data.replace("option_", "")`: remove every (left-to-right,
non-overlapping) occurrence of the 7-character marker `option_`. -/
def stripOptionMarker : List Char → List Char
  | 'o' :: 'p' :: 't' :: 'i' :: 'o' :: 'n' :: '_' :: rest => stripOptionMarker rest
  | c :: rest => c :: stripOptionMarker rest
  | [] => []

/-- Boolean list-prefix test, modelling `data.startswith("option_")`. -/
def isPrefixList : List Char → List Char → Bool
  | [], _ => true
  | _ :: _, [] => false
  | c :: cs, d :: ds => c = d && isPrefixList cs ds

/-- Outbound text sent after an option click. -/
def selectedMsg (opt : String) : String :=
  "You selected: " ++ opt ++ "\nEnter your Name:"

/-- Prompt sent when a session is created from typed option text. -/
def nameMsg : String := "Enter your Name:"

/-- Guidance sent to a user with no session and unrecognized text. -/
def guidanceMsg : String :=
  "Please select a service using /start (buttons) or type one of: " ++
    String.intercalate ", " KNOWN_OPTIONS

/-- Prompt after the name is stored. -/
def emailPromptMsg : String := "Enter your Email:"

/-- Re-prompt on a rejected email. -/
def emailErrMsg : String :=
  "Invalid email format. Please enter a valid email (example@example.com):"

/-- Prompt after the email is stored. -/
def phonePromptMsg : String := "Enter your Phone Number (digits, min 7):"

/-- Re-prompt on a rejected phone number. -/
def phoneErrMsg : String :=
  "Invalid phone! Please enter digits only (min 7). You may include + for country code."

/-- Prompt after the phone is stored. -/
def queryPromptMsg : String := "Enter your Query / Message:"

/-- Acknowledgment after a successful sheet append. -/
def successMsg : String :=
  "✅ Thank you! Your details have been recorded. We will contact you soon."

/-- Follow-up WhatsApp pointer after a successful save. -/
def whatsappMsg : String := "Contact us via WhatsApp: https://wa.me/7760225959"

/-- Message sent when the sheet append fails. -/
def saveFailMsg : String :=
  "Sorry, there was an error saving your data. Please try again later."

/-- Message of the unreachable fallback branch of `handle_message`. -/
def fallbackMsg : String := "Something went wrong. Please send /start to begin again."

/-- `button_handler` from `main.py`: always answer the callback query
first (the `try/except` cannot skip the attempt), then on `option_*` data
overwrite the user's session with a fresh step-2 record, edit away the
inline keyboard and send the name prompt; any other callback data is
logged and ignored. -/
def button_handler (u : Nat) (data : String) (st : Store) : Store × List Effect :=
  if isPrefixList ("option_".data) data.data then
    let s : Session :=
      { step := 2, option := String.mk (stripOptionMarker data.data),
        name := "", email := "", phone := "", query := "" }
    (insertS st u s,
      [Effect.ack, Effect.storePut u s, Effect.editMarkup,
       Effect.send (selectedMsg s.option)])
  else (st, [Effect.ack])

/-- `handle_message` from `main.py`: ignore empty text, strip the text,
create a session from typed option text when none exists (else send
guidance), otherwise advance the state machine by `step`; at step 5 the
query is stored, the row is appended to the sheet synchronously, the
outcome message is sent, and the session is deleted; an unhandled step
falls back to an apology and a reset. -/
def handle_message (u : Nat) (rawText : String) (sink : Except String Unit)
    (st : Store) : Store × List Effect :=
  if rawText = "" then (st, [])
  else
    let text := String.mk (pyStrip rawText.data)
    match findS st u with
    | none =>
      if text ∈ KNOWN_OPTIONS then
        let s : Session :=
          { step := 2, option := text, name := "", email := "", phone := "", query := "" }
        (insertS st u s, [Effect.storePut u s, Effect.send nameMsg])
      else (st, [Effect.send guidanceMsg])
    | some sess =>
      if sess.step = 2 then
        let s := { sess with name := text, step := 3 }
        (insertS st u s, [Effect.storePut u s, Effect.send emailPromptMsg])
      else if sess.step = 3 then
        if is_valid_email text then
          let s := { sess with email := text, step := 4 }
          (insertS st u s, [Effect.storePut u s, Effect.send phonePromptMsg])
        else (st, [Effect.send emailErrMsg])
      else if sess.step = 4 then
        if is_valid_phone text then
          let s := { sess with phone := text, step := 5 }
          (insertS st u s, [Effect.storePut u s, Effect.send queryPromptMsg])
        else (st, [Effect.send phoneErrMsg])
      else if sess.step = 5 then
        let s := { sess with query := text }
        let row := [s.option, s.name, s.email, s.phone, s.query]
        if save_to_sheet_sync sink then
          (eraseS (insertS st u s) u,
            [Effect.storePut u s, Effect.sinkCall row, Effect.send successMsg,
             Effect.send whatsappMsg, Effect.storeDelete u])
        else
          (eraseS (insertS st u s) u,
            [Effect.storePut u s, Effect.sinkCall row, Effect.send saveFailMsg,
             Effect.storeDelete u])
      else
        (eraseS st u, [Effect.send fallbackMsg, Effect.storeDelete u])

/-- Stores reachable from the empty initial `user_data` dict by any
interleaving of callback-query and text-message events (each text event
carrying its own Record Sink outcome). -/
inductive Reachable : Store → Prop where
  | init : Reachable []
  | cb (st : Store) (u : Nat) (data : String) :
      Reachable st → Reachable (button_handler u data st).1
  | msg (st : Store) (u : Nat) (t : String) (sink : Except String Unit) :
      Reachable st → Reachable (handle_message u t sink st).1

/-- The spec's description of the email shape, as an independent
existential decomposition: one or more characters of the class
word-or-dot-or-hyphen, an at-sign, one or more of the same, a literal dot,
then one or more word characters — covering the entire string. -/
def EmailShape (cs : List Char) : Prop :=
  ∃ loc dom tld : List Char,
    cs = loc ++ '@' :: (dom ++ '.' :: tld) ∧
    loc ≠ [] ∧ (∀ c ∈ loc, isAtomCh c = true) ∧
    dom ≠ [] ∧ (∀ c ∈ dom, isAtomCh c = true) ∧
    tld ≠ [] ∧ (∀ c ∈ tld, isWordCh c = true)

/-- The phone predicate exactly as the claim words it: after stripping a
single optional leading plus from the text, the remainder consists
entirely of digits and has at least the configured minimum length (7 in
this program). -/
def spec_validPhone (t : String) : Prop :=
  (∀ c ∈ stripPlus t.data, c.isDigit = true) ∧ 7 ≤ (stripPlus t.data).length

/-- The normalization the code actually applies before the digit test,
phrased spec-style: strip surrounding whitespace, drop every space and
hyphen (as a single filter), then strip one optional leading plus. -/
def phoneNormalizedSpec (t : String) : List Char :=
  stripPlus ((pyStrip t.data).filter (fun c => !(c = ' ' || c = '-')))

/-- Every session in the store sits at one of the four dialogue steps
NAME_PROMPT (2) through QUERY_PROMPT (5). -/
def StepInv (st : Store) : Prop :=
  ∀ p ∈ st, p.2.step = 2 ∨ p.2.step = 3 ∨ p.2.step = 4 ∨ p.2.step = 5

/-! Store lemmas. -/

/-- Looking up the key just written returns the written session. -/
theorem findS_insertS_self (st : Store) (u : Nat) (s : Session) :
    findS (insertS st u s) u = some s := by
  induction st with
  | nil => simp [insertS, findS]
  | cons p rest ih =>
    by_cases h : p.1 = u
    · simp [insertS, findS, h]
    · simp [insertS, findS, h, ih]

/-- Looking up an erased key returns nothing. -/
theorem findS_eraseS_self (st : Store) (u : Nat) :
    findS (eraseS st u) u = none := by
  induction st with
  | nil => simp [eraseS, findS]
  | cons p rest ih =>
    by_cases h : p.1 = u
    · simpa [eraseS, h] using ih
    · simpa [eraseS, findS, h, bne_iff_ne] using ih

/-- Writing a key that is absent appends a single new entry. -/
theorem insertS_of_findS_none (st : Store) (u : Nat) (s : Session)
    (h : findS st u = none) : insertS st u s = st ++ [(u, s)] := by
  induction st with
  | nil => simp [insertS]
  | cons p rest ih =>
    by_cases hp : p.1 = u
    · simp [findS, hp] at h
    · simp [findS, hp] at h
      simp [insertS, hp, ih h]

/-- Writing the same session to the same key twice equals writing it once. -/
theorem insertS_insertS_same (st : Store) (u : Nat) (s : Session) :
    insertS (insertS st u s) u s = insertS st u s := by
  induction st with
  | nil => simp [insertS]
  | cons p rest ih =>
    by_cases h : p.1 = u
    · simp [insertS, h]
    · simp [insertS, h, ih]

/-- A key that lookup misses has no entries at all. -/
theorem countKey_eq_zero_of_findS_none (st : Store) (u : Nat)
    (h : findS st u = none) : countKey st u = 0 := by
  induction st with
  | nil => simp [countKey]
  | cons p rest ih =>
    by_cases hp : p.1 = u
    · simp [findS, hp] at h
    · simp [findS, hp] at h
      simpa [countKey, hp] using ih h

/-- Entry count after appending one entry for the key. -/
theorem countKey_append_single (st : Store) (u : Nat) (s : Session) :
    countKey (st ++ [(u, s)]) u = countKey st u + 1 := by
  simp [countKey, List.filter_append]

/-- A successful lookup exhibits a member of the store. -/
theorem mem_of_findS_eq_some (st : Store) (u : Nat) (s : Session)
    (h : findS st u = some s) : (u, s) ∈ st := by
  induction st with
  | nil => simp [findS] at h
  | cons p rest ih =>
    by_cases hp : p.1 = u
    · simp [findS, hp] at h
      rw [List.mem_cons]
      left
      cases p
      simp_all
    · simp [findS, hp] at h
      exact List.mem_cons_of_mem _ (ih h)

/-- Members after a write: the new entry or an old member. -/
theorem mem_insertS (st : Store) (u : Nat) (s : Session) (p : Nat × Session)
    (h : p ∈ insertS st u s) : p = (u, s) ∨ p ∈ st := by
  induction st with
  | nil => simpa [insertS] using h
  | cons q rest ih =>
    by_cases hq : q.1 = u
    · simp [insertS, hq] at h
      rcases h with h | h
      · left; exact h
      · right; exact List.mem_cons_of_mem _ h
    · simp [insertS, hq] at h
      rcases h with h | h
      · right; simp [h]
      · rcases ih h with h' | h'
        · left; exact h'
        · right; exact List.mem_cons_of_mem _ h'

/-- Members survive erasure. -/
theorem mem_of_mem_eraseS (st : Store) (u : Nat) (p : Nat × Session)
    (h : p ∈ eraseS st u) : p ∈ st :=
  List.mem_of_mem_filter h

/-! Email matcher correctness. -/

/-- takeWhile over a satisfying block followed by a failing character. -/
theorem takeWhile_append_stop (p : Char → Bool) (a : List Char) (t : Char)
    (rest : List Char) (ha : ∀ x ∈ a, p x = true) (ht : p t = false) :
    (a ++ t :: rest).takeWhile p = a := by
  induction a with
  | nil => simp [List.takeWhile_cons, ht]
  | cons c cs ih =>
    have hc : p c = true := ha c (List.mem_cons_self c cs)
    simp [List.takeWhile_cons, hc, ih (fun x hx => ha x (List.mem_cons_of_mem _ hx))]

/-- dropWhile over a satisfying block followed by a failing character. -/
theorem dropWhile_append_stop (p : Char → Bool) (a : List Char) (t : Char)
    (rest : List Char) (ha : ∀ x ∈ a, p x = true) (ht : p t = false) :
    (a ++ t :: rest).dropWhile p = t :: rest := by
  induction a with
  | nil => simp [List.dropWhile_cons, ht]
  | cons c cs ih =>
    have hc : p c = true := ha c (List.mem_cons_self c cs)
    simp [List.dropWhile_cons, hc, ih (fun x hx => ha x (List.mem_cons_of_mem _ hx))]

/-- The negated-emptiness test used by the matcher. -/
theorem bnot_isEmpty_iff (l : List Char) : (!l.isEmpty) = true ↔ l ≠ [] := by
  cases l <;> simp

/-- Characters of the class `[\w.-]` are never the at-sign. -/
theorem atomCh_ne_at (c : Char) (h : isAtomCh c = true) : c ≠ '@' := by
  intro he
  subst he
  exact absurd h (by decide)

/-- Word characters are never a dot. -/
theorem wordCh_ne_dot (c : Char) (h : isWordCh c = true) : c ≠ '.' := by
  intro he
  subst he
  exact absurd h (by decide)

/-- The executable full matcher recognizes exactly the spec's email shape. -/
theorem emailFullMatch_iff (cs : List Char) :
    emailFullMatch cs = true ↔ EmailShape cs := by
  constructor
  · intro h
    unfold emailFullMatch at h
    split at h
    next rest hd =>
      split at h
      next revDom hd2 =>
        simp only [Bool.and_eq_true] at h
        obtain ⟨⟨⟨⟨⟨h1, h2⟩, h3⟩, h4⟩, h5⟩, h6⟩ := h
        refine ⟨cs.takeWhile (fun c => c ≠ '@'), revDom.reverse,
          (rest.reverse.takeWhile (fun c => c ≠ '.')).reverse, ?_, ?_, ?_, ?_, ?_, ?_, ?_⟩
        · have hcs : cs = cs.takeWhile (fun c => c ≠ '@') ++ '@' :: rest := by
            conv_lhs => rw [← List.takeWhile_append_dropWhile (fun c => c ≠ '@') cs]
            rw [hd]
          have hrev : rest.reverse =
              rest.reverse.takeWhile (fun c => c ≠ '.') ++ '.' :: revDom := by
            conv_lhs =>
              rw [← List.takeWhile_append_dropWhile (fun c => c ≠ '.') rest.reverse]
            rw [hd2]
          have hrest : rest = revDom.reverse ++ '.' ::
              (rest.reverse.takeWhile (fun c => c ≠ '.')).reverse := by
            conv_lhs => rw [← List.reverse_reverse rest, hrev]
            simp [List.reverse_append]
          conv_lhs => rw [hcs, hrest]
        · exact (bnot_isEmpty_iff _).mp h1
        · exact fun c hc => (List.all_eq_true.mp h2) c hc
        · intro hnil
          exact (bnot_isEmpty_iff _).mp h3 (by simpa using congrArg List.reverse hnil)
        · intro c hc
          exact (List.all_eq_true.mp h4) c (List.mem_reverse.mp hc)
        · intro hnil
          exact (bnot_isEmpty_iff _).mp h5 (by simpa using congrArg List.reverse hnil)
        · intro c hc
          exact (List.all_eq_true.mp h6) c (List.mem_reverse.mp hc)
      next => simp at h
    next => simp at h
  · rintro ⟨loc, dom, tld, hcs, hl, hla, hd, hda, ht, hta⟩
    have hlocAt : ∀ x ∈ loc, (fun c => decide (c ≠ '@')) x = true := by
      intro x hx
      simpa using atomCh_ne_at x (hla x hx)
    have hdomDotFree : ∀ x ∈ tld.reverse, (fun c => decide (c ≠ '.')) x = true := by
      intro x hx
      simpa using wordCh_ne_dot x (hta x (List.mem_reverse.mp hx))
    have e1 : cs.dropWhile (fun c => c ≠ '@') = '@' :: (dom ++ '.' :: tld) := by
      rw [hcs]
      exact dropWhile_append_stop _ loc '@' _ hlocAt (by simp)
    have e1' : cs.takeWhile (fun c => c ≠ '@') = loc := by
      rw [hcs]
      exact takeWhile_append_stop _ loc '@' _ hlocAt (by simp)
    have hrev : (dom ++ '.' :: tld).reverse = tld.reverse ++ '.' :: dom.reverse := by
      simp [List.reverse_append]
    have e2 : (dom ++ '.' :: tld).reverse.dropWhile (fun c => c ≠ '.') =
        '.' :: dom.reverse := by
      rw [hrev]
      exact dropWhile_append_stop _ tld.reverse '.' _ hdomDotFree (by simp)
    have e2' : (dom ++ '.' :: tld).reverse.takeWhile (fun c => c ≠ '.') = tld.reverse := by
      rw [hrev]
      exact takeWhile_append_stop _ tld.reverse '.' _ hdomDotFree (by simp)
    unfold emailFullMatch
    rw [e1]
    simp only [e2, e2', e1']
    simp [bnot_isEmpty_iff, List.all_eq_true, hl, hd, ht, List.reverse_eq_nil_iff]
    exact ⟨⟨hla, hda⟩, hta⟩

/-! Phone validator lemmas. -/

/-- Removing one character is filtering it out. -/
theorem removeCh_eq_filter (cs : List Char) (d : Char) :
    removeCh cs d = cs.filter (fun c => c ≠ d) := by
  induction cs with
  | nil => simp [removeCh]
  | cons c rest ih =>
    by_cases h : c = d
    · simp [removeCh, h, ih]
    · simp [removeCh, h, ih]

/-- Removing spaces then hyphens is one combined filter. -/
theorem removeCh_removeCh_eq_filter (cs : List Char) :
    removeCh (removeCh cs ' ') '-' = cs.filter (fun c => !(c = ' ' || c = '-')) := by
  induction cs with
  | nil => simp [removeCh]
  | cons c rest ih =>
    by_cases h1 : c = ' '
    · simp [removeCh, h1, ih]
    · by_cases h2 : c = '-'
      · simp [removeCh, h1, h2, ih]
      · simp [removeCh, h1, h2, ih]

/-! Claims about the validators. -/

/-- C4, counterexample: the claim states the phone validator accepts
exactly the texts whose remainder after one optional leading plus is all
digits of length at least 7; the code additionally strips whitespace and
removes every space and hyphen first, so it accepts "123-4567" even
though that text has non-digit content after the (absent) plus. -/
theorem C4_counterexample :
    ¬(is_valid_phone "123-4567" = true ↔ spec_validPhone "123-4567") := by
  intro h
  have hv : is_valid_phone "123-4567" = true := by decide
  obtain ⟨hall, -⟩ := h.mp hv
  have hmem : '-' ∈ stripPlus ("123-4567".data) := by decide
  exact absurd (hall '-' hmem) (by decide)

/-- C4, amended: for all text t, the phone validator returns true iff,
after stripping surrounding whitespace, removing every space and hyphen,
and then stripping a single optional leading plus, the remainder is
non-empty, all digits, and at least 7 characters long. -/
theorem C4_amended_valid_phone (t : String) :
    is_valid_phone t = true ↔
      (phoneNormalizedSpec t ≠ [] ∧ (∀ c ∈ phoneNormalizedSpec t, c.isDigit = true) ∧
        7 ≤ (phoneNormalizedSpec t).length) := by
  unfold is_valid_phone phoneNormalizedSpec pyIsdigit
  rw [removeCh_removeCh_eq_filter]
  simp only [Bool.and_eq_true, List.all_eq_true, bnot_isEmpty_iff, decide_eq_true_eq]
  tauto

/-- C8, counterexample: under Python re.match semantics the dollar anchor
also matches just before one trailing newline, so the code accepts
"a@b.c\n" although that string does not have the anchored email shape
(its last character is a newline, not a word character). -/
theorem C8_counterexample :
    ¬(is_valid_email "a@b.c\n" = true ↔ EmailShape ("a@b.c\n".data)) := by
  intro h
  have hv : is_valid_email "a@b.c\n" = true := by decide
  have hs : emailFullMatch ("a@b.c\n".data) = true :=
    (emailFullMatch_iff _).mpr (h.mp hv)
  exact absurd hs (by decide)

/-- C8, amended: for all text t, the email validator returns true iff t
has the anchored shape word-dot-hyphen block, at-sign, second such block,
literal dot, word block — or t is such a match followed by exactly one
trailing newline (Python dollar-anchor semantics); no input is modified. -/
theorem C8_amended_valid_email (t : String) :
    is_valid_email t = true ↔
      (EmailShape t.data ∨ (t.data.getLast? = some '\n' ∧ EmailShape t.data.dropLast)) := by
  unfold is_valid_email pyAnchoredDollar
  simp [Bool.or_eq_true, Bool.and_eq_true, beq_iff_eq, emailFullMatch_iff]

/-! Claims about the handlers. -/

/-- C7: for every callback-style inbound event — any payload, any store —
the acknowledgment of the callback query is the first effect of
`button_handler`, before any session write or outbound message; effects
are listed in program order, so everything downstream (including anything
that later fails) comes strictly after the acknowledgment, and the head
of the trace is the acknowledgment unconditionally. -/
theorem C7_ack_first (u : Nat) (data : String) (st : Store) :
    ((button_handler u data st).2).head? = some Effect.ack := by
  cases hp : isPrefixList ("option_".data) data.data <;> simp [button_handler, hp]

/-- C3: delivering the same option-selection callback twice for a user
with no active session leaves the store exactly as after one delivery
(the second write re-stores the identical fresh session, which is
state-indistinguishable from a continuation), and exactly one session
exists for the user after either delivery. -/
theorem C3_option_idempotent (st : Store) (u : Nat) (data : String)
    (hnone : findS st u = none)
    (hopt : isPrefixList ("option_".data) data.data = true) :
    (button_handler u data (button_handler u data st).1).1 =
      (button_handler u data st).1 ∧
    countKey (button_handler u data st).1 u = 1 ∧
    countKey (button_handler u data (button_handler u data st).1).1 u = 1 := by
  refine ⟨?_, ?_, ?_⟩
  · simp [button_handler, hopt, insertS_insertS_same]
  · simp only [button_handler, hopt, if_true]
    rw [insertS_of_findS_none st u _ hnone, countKey_append_single,
      countKey_eq_zero_of_findS_none st u hnone]
  · simp only [button_handler, hopt, if_true, insertS_insertS_same]
    rw [insertS_of_findS_none st u _ hnone, countKey_append_single,
      countKey_eq_zero_of_findS_none st u hnone]

/-- C3 witness: a concrete double delivery of `option_SEO` to user 1. -/
theorem C3_witness :
    (button_handler 1 "option_SEO" (button_handler 1 "option_SEO" []).1).1 =
      (button_handler 1 "option_SEO" []).1 ∧
    countKey (button_handler 1 "option_SEO" []).1 1 = 1 ∧
    countKey (button_handler 1 "option_SEO" (button_handler 1 "option_SEO" []).1).1 1 = 1 :=
  C3_option_idempotent [] 1 "option_SEO" (by decide) (by decide)

/-- C9, counterexample: the raw text " SEO" is not a recognized option
label, yet delivering it to a user with no session creates a session,
because the code strips the text before comparing it to the labels. -/
theorem C9_counterexample :
    " SEO" ∉ KNOWN_OPTIONS ∧
    findS (handle_message 7 " SEO" (Except.ok ()) []).1 7 =
      some { step := 2, option := "SEO", name := "", email := "",
             phone := "", query := "" } := by
  decide

/-- C9, amended: for every user with no active session, a text event whose
nonempty text does not strip to one of the recognized option labels only
sends the guidance message; the store is returned unchanged and no
session is created. -/
theorem C9_amended_guidance (st : Store) (u : Nat) (t : String)
    (sink : Except String Unit) (ht : t ≠ "")
    (hnone : findS st u = none)
    (hopt : String.mk (pyStrip t.data) ∉ KNOWN_OPTIONS) :
    handle_message u t sink st = (st, [Effect.send guidanceMsg]) := by
  simp only [handle_message, hnone]
  rw [if_neg ht]
  simp [hopt]

/-- C9 witness: user 9 with no session typing "hello". -/
theorem C9_witness :
    handle_message 9 "hello" (Except.ok ()) [] = ([], [Effect.send guidanceMsg]) :=
  C9_amended_guidance [] 9 "hello" (Except.ok ()) (by decide) (by decide) (by decide)

/-- C6: a text event failing the email validator at step 3, or the phone
validator at step 4, returns the store unchanged — same session, same
step, same fields — and sends exactly the corresponding error re-prompt. -/
theorem C6_validation_reject (st : Store) (u : Nat) (sess : Session) (t : String)
    (sink : Except String Unit) (ht : t ≠ "")
    (hfind : findS st u = some sess)
    (h : (sess.step = 3 ∧ is_valid_email (String.mk (pyStrip t.data)) = false) ∨
         (sess.step = 4 ∧ is_valid_phone (String.mk (pyStrip t.data)) = false)) :
    (handle_message u t sink st).1 = st ∧
    ((handle_message u t sink st).2 = [Effect.send emailErrMsg] ∨
     (handle_message u t sink st).2 = [Effect.send phoneErrMsg]) := by
  rcases h with ⟨hs, hv⟩ | ⟨hs, hv⟩
  · have heq : handle_message u t sink st = (st, [Effect.send emailErrMsg]) := by
      simp only [handle_message, hfind]
      rw [if_neg ht]
      simp [hs, hv]
    rw [heq]
    exact ⟨rfl, Or.inl rfl⟩
  · have heq : handle_message u t sink st = (st, [Effect.send phoneErrMsg]) := by
      simp only [handle_message, hfind]
      rw [if_neg ht]
      simp [hs, hv]
    rw [heq]
    exact ⟨rfl, Or.inr rfl⟩

/-- C6 witness: user 3 mid-dialogue at the email step sends a malformed
email and is only re-prompted. -/
theorem C6_witness :
    (handle_message 3 "oops" (Except.ok ())
        [(3, { step := 3, option := "SEO", name := "Jane", email := "",
               phone := "", query := "" })]).1 =
      [(3, { step := 3, option := "SEO", name := "Jane", email := "",
             phone := "", query := "" })] ∧
    ((handle_message 3 "oops" (Except.ok ())
        [(3, { step := 3, option := "SEO", name := "Jane", email := "",
               phone := "", query := "" })]).2 = [Effect.send emailErrMsg] ∨
     (handle_message 3 "oops" (Except.ok ())
        [(3, { step := 3, option := "SEO", name := "Jane", email := "",
               phone := "", query := "" })]).2 = [Effect.send phoneErrMsg]) :=
  C6_validation_reject
    [(3, { step := 3, option := "SEO", name := "Jane", email := "",
           phone := "", query := "" })] 3
    { step := 3, option := "SEO", name := "Jane", email := "",
      phone := "", query := "" } "oops" (Except.ok ()) (by decide) (by decide)
    (Or.inl ⟨by decide, by decide⟩)

/-- C2, counterexample: after selecting an option and sending a name the
session of user 1 is at step 3; re-delivering the accepted option
callback overwrites it back to step 2 without any submission or
cancellation, so an accepted event can lower the step of a live session. -/
theorem C2_counterexample :
    (findS (handle_message 1 "Jane" (Except.ok ())
        (button_handler 1 "option_SEO" []).1).1 1).map Session.step = some 3 ∧
    (findS (button_handler 1 "option_SEO"
        (handle_message 1 "Jane" (Except.ok ())
          (button_handler 1 "option_SEO" []).1).1).1 1).map Session.step = some 2 := by
  decide

/-- C2, amended: across accepted text-message events the step of an
existing session never decreases (it is removed, not lowered, at step-5
completion and at the fallback); only an option-selection callback can
lower it, by re-creating the session at step 2. -/
theorem C2_amended_text_monotone (st : Store) (u : Nat) (t : String)
    (sink : Except String Unit) (sess sess' : Session)
    (hfind : findS st u = some sess)
    (hfind' : findS (handle_message u t sink st).1 u = some sess') :
    sess.step ≤ sess'.step := by
  by_cases ht : t = ""
  · have hst : (handle_message u t sink st).1 = st := by simp [handle_message, ht]
    rw [hst, hfind] at hfind'
    cases hfind'
    exact Nat.le_refl _
  · by_cases h2 : sess.step = 2
    · have hst : (handle_message u t sink st).1 =
          insertS st u { sess with name := String.mk (pyStrip t.data), step := 3 } := by
        simp only [handle_message, hfind]
        rw [if_neg ht]
        simp [h2]
      rw [hst, findS_insertS_self] at hfind'
      cases hfind'
      simp [h2]
    · by_cases h3 : sess.step = 3
      · by_cases hv : is_valid_email (String.mk (pyStrip t.data)) = true
        · have hst : (handle_message u t sink st).1 =
              insertS st u { sess with email := String.mk (pyStrip t.data), step := 4 } := by
            simp only [handle_message, hfind]
            rw [if_neg ht]
            simp [h2, h3, hv]
          rw [hst, findS_insertS_self] at hfind'
          cases hfind'
          simp [h3]
        · have hst : (handle_message u t sink st).1 = st := by
            simp only [handle_message, hfind]
            rw [if_neg ht]
            simp [h2, h3, hv]
          rw [hst, hfind] at hfind'
          cases hfind'
          exact Nat.le_refl _
      · by_cases h4 : sess.step = 4
        · by_cases hv : is_valid_phone (String.mk (pyStrip t.data)) = true
          · have hst : (handle_message u t sink st).1 =
                insertS st u { sess with phone := String.mk (pyStrip t.data), step := 5 } := by
              simp only [handle_message, hfind]
              rw [if_neg ht]
              simp [h2, h3, h4, hv]
            rw [hst, findS_insertS_self] at hfind'
            cases hfind'
            simp [h4]
          · have hst : (handle_message u t sink st).1 = st := by
              simp only [handle_message, hfind]
              rw [if_neg ht]
              simp [h2, h3, h4, hv]
            rw [hst, hfind] at hfind'
            cases hfind'
            exact Nat.le_refl _
        · by_cases h5 : sess.step = 5
          · have hst : (handle_message u t sink st).1 =
                eraseS (insertS st u { sess with query := String.mk (pyStrip t.data) }) u := by
              simp only [handle_message, hfind]
              rw [if_neg ht]
              cases hs : save_to_sheet_sync sink <;> simp [h2, h3, h4, h5, hs]
            rw [hst, findS_eraseS_self] at hfind'
            cases hfind'
          · have hst : (handle_message u t sink st).1 = eraseS st u := by
              simp only [handle_message, hfind]
              rw [if_neg ht]
              simp [h2, h3, h4, h5]
            rw [hst, findS_eraseS_self] at hfind'
            cases hfind'

/-- C2 witness: a valid email at step 3 advances user 2 from step 3 to
step 4, a non-decreasing move. -/
theorem C2_witness :
    ({ step := 3, option := "SEO", name := "Jane", email := "", phone := "",
       query := "" } : Session).step ≤
      ({ step := 4, option := "SEO", name := "Jane", email := "jane@x.com",
         phone := "", query := "" } : Session).step :=
  C2_amended_text_monotone
    [(2, { step := 3, option := "SEO", name := "Jane", email := "", phone := "",
           query := "" })] 2 "jane@x.com" (Except.ok ())
    { step := 3, option := "SEO", name := "Jane", email := "", phone := "", query := "" }
    { step := 4, option := "SEO", name := "Jane", email := "jane@x.com", phone := "",
      query := "" } (by decide) (by decide)

/-- Full behavior of a text event at step 5 (QUERY_PROMPT): the query is
stored, the row is handed to the sink, the outcome message depends on the
sink result, and the session is deleted — in this order. -/
theorem handle_message_step5 (st : Store) (u : Nat) (sess : Session) (t : String)
    (sink : Except String Unit) (ht : t ≠ "")
    (hfind : findS st u = some sess) (hstep : sess.step = 5) :
    handle_message u t sink st =
      (eraseS (insertS st u { sess with query := String.mk (pyStrip t.data) }) u,
       [Effect.storePut u { sess with query := String.mk (pyStrip t.data) },
        Effect.sinkCall [sess.option, sess.name, sess.email, sess.phone,
          String.mk (pyStrip t.data)]] ++
       (if save_to_sheet_sync sink then [Effect.send successMsg, Effect.send whatsappMsg]
        else [Effect.send saveFailMsg]) ++
       [Effect.storeDelete u]) := by
  simp only [handle_message, hfind]
  rw [if_neg ht]
  cases hs : save_to_sheet_sync sink <;> simp [hstep, hs]

/-- C1, counterexample: at QUERY_PROMPT the code does not advance to a
CONFIRM state: delivering the query text triggers the Record Sink call in
the same event and deletes the session immediately. -/
theorem C1_counterexample :
    Effect.sinkCall ["SEO", "Jane", "jane@x.com", "1234567", "please help"] ∈
      (handle_message 1 "please help" (Except.ok ())
        [(1, { step := 5, option := "SEO", name := "Jane", email := "jane@x.com",
               phone := "1234567", query := "" })]).2 ∧
    findS (handle_message 1 "please help" (Except.ok ())
        [(1, { step := 5, option := "SEO", name := "Jane", email := "jane@x.com",
               phone := "1234567", query := "" })]).1 1 = none := by
  decide

/-- C1, amended: at QUERY_PROMPT (step 5) a nonempty text event stores the
stripped text as the query, immediately hands the completed record to the
Record Sink (Flow A — there is no CONFIRM state or confirm selection), and
removes the session. -/
theorem C1_flowA_immediate_save (st : Store) (u : Nat) (sess : Session) (t : String)
    (sink : Except String Unit) (ht : t ≠ "")
    (hfind : findS st u = some sess) (hstep : sess.step = 5) :
    Effect.sinkCall [sess.option, sess.name, sess.email, sess.phone,
        String.mk (pyStrip t.data)] ∈ (handle_message u t sink st).2 ∧
    findS (handle_message u t sink st).1 u = none := by
  rw [handle_message_step5 st u sess t sink ht hfind hstep]
  constructor
  · simp
  · exact findS_eraseS_self _ u

/-- C1 witness: user 4 at step 5 sending query text with a healthy sink. -/
theorem C1_witness :
    Effect.sinkCall ["Paid Marketing", "Bob", "bob@x.io", "7654321",
        String.mk (pyStrip "my query".data)] ∈
      (handle_message 4 "my query" (Except.ok ())
        [(4, { step := 5, option := "Paid Marketing", name := "Bob",
               email := "bob@x.io", phone := "7654321", query := "" })]).2 ∧
    findS (handle_message 4 "my query" (Except.ok ())
        [(4, { step := 5, option := "Paid Marketing", name := "Bob",
               email := "bob@x.io", phone := "7654321", query := "" })]).1 4 = none :=
  C1_flowA_immediate_save
    [(4, { step := 5, option := "Paid Marketing", name := "Bob",
           email := "bob@x.io", phone := "7654321", query := "" })] 4
    { step := 5, option := "Paid Marketing", name := "Bob", email := "bob@x.io",
      phone := "7654321", query := "" } "my query" (Except.ok ())
    (by decide) (by decide) (by decide)

/-- C5: the submission boundary never throws (the embedded
save_to_sheet_sync is total on the typed sink outcome), the session is
deleted for either outcome, the failure message is sent exactly on a sink
error, and the delete effect comes only after the sink call in the trace. -/
theorem C5_submit_boundary (st : Store) (u : Nat) (sess : Session) (t : String)
    (sink : Except String Unit) (ht : t ≠ "")
    (hfind : findS st u = some sess) (hstep : sess.step = 5) :
    findS (handle_message u t sink st).1 u = none ∧
    (handle_message u t sink st).2 =
      [Effect.storePut u { sess with query := String.mk (pyStrip t.data) },
       Effect.sinkCall [sess.option, sess.name, sess.email, sess.phone,
         String.mk (pyStrip t.data)]] ++
      (if save_to_sheet_sync sink then [Effect.send successMsg, Effect.send whatsappMsg]
       else [Effect.send saveFailMsg]) ++
      [Effect.storeDelete u] := by
  rw [handle_message_step5 st u sess t sink ht hfind hstep]
  exact ⟨findS_eraseS_self _ u, rfl⟩

/-- C5 witness: user 1 at step 5 with a failing sink — session deleted,
failure message sent after the sink call and before the delete. -/
theorem C5_witness :
    findS (handle_message 1 "help" (Except.error "down")
        [(1, { step := 5, option := "SEO", name := "Jane", email := "jane@x.com",
               phone := "1234567", query := "" })]).1 1 = none ∧
    (handle_message 1 "help" (Except.error "down")
        [(1, { step := 5, option := "SEO", name := "Jane", email := "jane@x.com",
               phone := "1234567", query := "" })]).2 =
      [Effect.storePut 1
        { step := 5, option := "SEO", name := "Jane", email := "jane@x.com",
          phone := "1234567", query := String.mk (pyStrip "help".data) },
       Effect.sinkCall ["SEO", "Jane", "jane@x.com", "1234567",
         String.mk (pyStrip "help".data)]] ++
      (if save_to_sheet_sync (Except.error "down")
       then [Effect.send successMsg, Effect.send whatsappMsg]
       else [Effect.send saveFailMsg]) ++
      [Effect.storeDelete 1] :=
  C5_submit_boundary
    [(1, { step := 5, option := "SEO", name := "Jane", email := "jane@x.com",
           phone := "1234567", query := "" })] 1
    { step := 5, option := "SEO", name := "Jane", email := "jane@x.com",
      phone := "1234567", query := "" } "help" (Except.error "down")
    (by decide) (by decide) (by decide)

/-! Step invariant over reachable stores. -/

/-- Writing a session at an allowed step preserves the invariant. -/
theorem StepInv_insert (st : Store) (u : Nat) (s : Session) (h : StepInv st)
    (hs : s.step = 2 ∨ s.step = 3 ∨ s.step = 4 ∨ s.step = 5) :
    StepInv (insertS st u s) := by
  intro p hp
  rcases mem_insertS st u s p hp with rfl | hm
  · exact hs
  · exact h p hm

/-- Erasure preserves the invariant. -/
theorem StepInv_erase (st : Store) (u : Nat) (h : StepInv st) :
    StepInv (eraseS st u) :=
  fun p hp => h p (mem_of_mem_eraseS st u p hp)

/-- The invariant is preserved by every callback event. -/
theorem StepInv_button (st : Store) (u : Nat) (data : String) (h : StepInv st) :
    StepInv (button_handler u data st).1 := by
  cases hp : isPrefixList ("option_".data) data.data
  · simpa [button_handler, hp] using h
  · simp only [button_handler, hp, if_true]
    exact StepInv_insert st u _ h (Or.inl rfl)

/-- The store after any text event is the old store, a write of a session
at an allowed step, or an erasure (possibly of a just-written key). -/
theorem handle_message_store_cases (u : Nat) (t : String) (sink : Except String Unit)
    (st : Store) :
    (handle_message u t sink st).1 = st ∨
    (∃ s : Session, (s.step = 2 ∨ s.step = 3 ∨ s.step = 4 ∨ s.step = 5) ∧
      (handle_message u t sink st).1 = insertS st u s) ∨
    (∃ s : Session, (handle_message u t sink st).1 = eraseS (insertS st u s) u) ∨
    (handle_message u t sink st).1 = eraseS st u := by
  by_cases ht : t = ""
  · left
    simp [handle_message, ht]
  · cases hf : findS st u with
    | none =>
      by_cases hk : String.mk (pyStrip t.data) ∈ KNOWN_OPTIONS
      · right; left
        refine ⟨{ step := 2, option := String.mk (pyStrip t.data), name := "",
                  email := "", phone := "", query := "" }, Or.inl rfl, ?_⟩
        simp only [handle_message, hf]
        rw [if_neg ht]
        simp [hk]
      · left
        simp only [handle_message, hf]
        rw [if_neg ht]
        simp [hk]
    | some sess =>
      by_cases h2 : sess.step = 2
      · right; left
        refine ⟨{ sess with name := String.mk (pyStrip t.data), step := 3 },
          Or.inr (Or.inl rfl), ?_⟩
        simp only [handle_message, hf]
        rw [if_neg ht]
        simp [h2]
      · by_cases h3 : sess.step = 3
        · by_cases hv : is_valid_email (String.mk (pyStrip t.data)) = true
          · right; left
            refine ⟨{ sess with email := String.mk (pyStrip t.data), step := 4 },
              Or.inr (Or.inr (Or.inl rfl)), ?_⟩
            simp only [handle_message, hf]
            rw [if_neg ht]
            simp [h2, h3, hv]
          · left
            simp only [handle_message, hf]
            rw [if_neg ht]
            simp [h2, h3, hv]
        · by_cases h4 : sess.step = 4
          · by_cases hv : is_valid_phone (String.mk (pyStrip t.data)) = true
            · right; left
              refine ⟨{ sess with phone := String.mk (pyStrip t.data), step := 5 },
                Or.inr (Or.inr (Or.inr rfl)), ?_⟩
              simp only [handle_message, hf]
              rw [if_neg ht]
              simp [h2, h3, h4, hv]
            · left
              simp only [handle_message, hf]
              rw [if_neg ht]
              simp [h2, h3, h4, hv]
          · by_cases h5 : sess.step = 5
            · right; right; left
              refine ⟨{ sess with query := String.mk (pyStrip t.data) }, ?_⟩
              simp only [handle_message, hf]
              rw [if_neg ht]
              cases hs : save_to_sheet_sync sink <;> simp [h2, h3, h4, h5, hs]
            · right; right; right
              simp only [handle_message, hf]
              rw [if_neg ht]
              simp [h2, h3, h4, h5]

/-- The invariant is preserved by every text event. -/
theorem StepInv_msg (st : Store) (u : Nat) (t : String) (sink : Except String Unit)
    (h : StepInv st) : StepInv (handle_message u t sink st).1 := by
  rcases handle_message_store_cases u t sink st with heq | ⟨s, hs, heq⟩ | ⟨s, heq⟩ | heq
  · rw [heq]; exact h
  · rw [heq]; exact StepInv_insert st u s h hs
  · rw [heq]
    intro p hp
    have hmem := List.mem_filter.mp hp
    rcases mem_insertS st u s p hmem.1 with rfl | hm
    · exact absurd hmem.2 (by simp)
    · exact h p hm
  · rw [heq]; exact StepInv_erase st u h

/-- Under the step invariant the fallback branch of `handle_message` is
unreachable: no text event ever produces the fallback apology message. -/
theorem no_fallback_of_StepInv (st : Store) (hinv : StepInv st) (u : Nat)
    (t : String) (sink : Except String Unit) :
    Effect.send fallbackMsg ∉ (handle_message u t sink st).2 := by
  by_cases ht : t = ""
  · simp [handle_message, ht]
  · cases hf : findS st u with
    | none =>
      by_cases hk : String.mk (pyStrip t.data) ∈ KNOWN_OPTIONS
      · intro hmem
        simp only [handle_message, hf] at hmem
        rw [if_neg ht] at hmem
        simp [hk] at hmem
        revert hmem
        decide
      · intro hmem
        simp only [handle_message, hf] at hmem
        rw [if_neg ht] at hmem
        simp [hk] at hmem
        revert hmem
        decide
    | some sess =>
      have hsteps : sess.step = 2 ∨ sess.step = 3 ∨ sess.step = 4 ∨ sess.step = 5 :=
        hinv (u, sess) (mem_of_findS_eq_some st u sess hf)
      rcases hsteps with h | h | h | h
      · intro hmem
        simp only [handle_message, hf] at hmem
        rw [if_neg ht] at hmem
        simp [h] at hmem
        revert hmem
        decide
      · by_cases hv : is_valid_email (String.mk (pyStrip t.data)) = true
        · intro hmem
          simp only [handle_message, hf] at hmem
          rw [if_neg ht] at hmem
          simp [h, hv] at hmem
          revert hmem
          decide
        · intro hmem
          simp only [handle_message, hf] at hmem
          rw [if_neg ht] at hmem
          simp [h, hv] at hmem
          revert hmem
          decide
      · by_cases hv : is_valid_phone (String.mk (pyStrip t.data)) = true
        · intro hmem
          simp only [handle_message, hf] at hmem
          rw [if_neg ht] at hmem
          simp [h, hv] at hmem
          revert hmem
          decide
        · intro hmem
          simp only [handle_message, hf] at hmem
          rw [if_neg ht] at hmem
          simp [h, hv] at hmem
          revert hmem
          decide
      · intro hmem
        simp only [handle_message, hf] at hmem
        rw [if_neg ht] at hmem
        cases hs : save_to_sheet_sync sink <;> simp [h, hs] at hmem <;>
          revert hmem <;> decide

/-- C10: every store reachable from the empty initial state keeps all
sessions at steps 2 through 5 — creation writes step 2, mutations write
steps 3, 4 or 5, and step-5 completion deletes — so the fallback branch of
`handle_message` for an unhandled step value can never fire. -/
theorem C10_step_invariant (st : Store) (h : Reachable st) :
    StepInv st ∧
    ∀ (u : Nat) (t : String) (sink : Except String Unit),
      Effect.send fallbackMsg ∉ (handle_message u t sink st).2 := by
  have hinv : StepInv st := by
    induction h with
    | init => intro p hp; cases hp
    | cb st' u d _ ih => exact StepInv_button st' u d ih
    | msg st' u t sink _ ih => exact StepInv_msg st' u t sink ih
  exact ⟨hinv, fun u t sink => no_fallback_of_StepInv st hinv u t sink⟩

/-- C10 witness: the invariant and fallback-unreachability at the store
obtained by one concrete option click from the empty store. -/
theorem C10_witness :
    StepInv (button_handler 1 "option_SEO" []).1 ∧
    ∀ (u : Nat) (t : String) (sink : Except String Unit),
      Effect.send fallbackMsg ∉
        (handle_message u t sink (button_handler 1 "option_SEO" []).1).2 :=
  C10_step_invariant (button_handler 1 "option_SEO" []).1
    (Reachable.cb [] 1 "option_SEO" Reachable.init)
